import Mathlib

/-!
Verification of the vault-unlock pipeline of `src/vault.js` (1password.js).

The repository's core is a single file, `src/vault.js`, whose pieces are
embedded here as pure Lean functions:

* `decryptKeyData`  — the envelope codec (`decryptKeyData`, vault.js:217-261);
* `createKeyPair`   — key splitting with optional SHA-512 (`createKeyPair`, vault.js:268-276);
* `unlock`          — the key-hierarchy portion of `Vault.constructor` (vault.js:42-91);
* `buildKeys`       — the per-item overview/key loop of the constructor (vault.js:102-140);
* `resolveDetails`  — the item-detail loop of the constructor (vault.js:155-190);
* `search`          — `Vault.search` (vault.js:197-207).

External collaborators (node `crypto` primitives, JSON parsing, the sqlite
row store) are passed in as explicit function parameters, exactly where the
source calls out to them; the byte-level work the source itself performs
(slicing, the length-field arithmetic, check ordering, error routing) is
translated literally.  Buffers are `List Nat` of byte values; JS 32-bit
operator semantics (`readUInt32LE`, `<<` on Int32, `Math.abs`) are made
explicit.

Error routing follows the JS control flow precisely.  `decryptKeyData`
reports failures two ways: via the error-first callback (the `'Invalid
OPData1 Checksum'` and `'Invalid password'` paths) and by *throwing*
(`readUInt32LE` out of bounds throws a RangeError; `decipher.final()` throws
when the ciphertext is not block-aligned, because auto padding is disabled).
The two have different consequences at each call site:

* in the key-hierarchy stage both reject the promise chain (the call sits in
  a `new Promise` executor whose callback rejects and whose body's throw is
  caught by the Promise constructor), so both are modelled as `Except.error`;
* in the per-item loop (vault.js:106-138) a callback error only produces a
  `Promise.reject(err)` whose rejection is *discarded* (the callback's return
  value goes nowhere), so the item is silently skipped, while a thrown error
  propagates out of the `.then` callback and rejects the chain;
* in the detail loop (vault.js:168-185) a callback error is deliberately
  ignored (`itemDetail = null`), while a throw inside the executor rejects
  that detail's promise and hence `Promise.all`.

The model distinguishes the two classes through the `DecryptError`
constructors: `checksumMismatch` and `authenticationFailure` are the
callback-delivered errors, `rangeError` and `decryptionFailure` the thrown
ones.
-/

/-- Byte buffers (`Buffer`) are lists of byte values. -/
abbrev Bytes := List Nat

deriving instance DecidableEq for Except

/-- Failure modes of `decryptKeyData`.  `checksumMismatch` is the
`'Invalid OPData1 Checksum'` callback error, `authenticationFailure` the
`'Invalid password'` callback error; `rangeError` models the throw of
`data.readUInt32LE` on a buffer shorter than 16 bytes, and
`decryptionFailure` the throw of `decipher.final()` on ciphertext whose
length is not a multiple of the AES block size. -/
inductive DecryptError where
  | checksumMismatch
  | authenticationFailure
  | rangeError
  | decryptionFailure
deriving DecidableEq, Repr

/-- The ASCII bytes of the magic string `"opdata01"`. -/
def opdata01Bytes : Bytes := [111, 112, 100, 97, 116, 97, 48, 49]

/-- `Buffer.prototype.readUInt32LE(off)`: the little-endian 32-bit word at
offset `off`.  (Callers guard `off + 4 ≤ data.length`; out of bounds the JS
method throws, which callers model separately.) -/
def readUInt32LE (data : Bytes) (off : Nat) : Nat :=
  let q := data.drop off
  q.getD 0 0 + q.getD 1 0 * 256 + q.getD 2 0 * 65536 + q.getD 3 0 * 16777216

/-- JS `ToInt32`: reduce modulo 2^32 and reinterpret as a signed 32-bit
value. -/
def toInt32 (n : Nat) : Int :=
  if n % 4294967296 < 2147483648 then (n % 4294967296 : Int)
  else (n % 4294967296 : Int) - 4294967296

/-- JS `x << 8` applied to a `readUInt32LE` result: both operands pass
through `ToInt32`, the shift is performed on 32 bits, and the result is
again a signed 32-bit value. -/
def jsShl8 (n : Nat) : Int := toInt32 (n * 256)

/-- vault.js:228, `(data.readUInt32LE(12) << 8) + data.readUInt32LE(8)`:
the declared-plaintext-length computation, with JS numeric semantics (the
shift is 32-bit and signed, the final `+` is exact). -/
def lengthField (data : Bytes) : Int :=
  jsShl8 (readUInt32LE data 12) + (readUInt32LE data 8 : Int)

/-- `buf.slice(-n)` for `n : Nat`: the trailing `n` bytes — except that
`n = 0` (JS `slice(-0)`) yields the whole buffer, and `n` larger than the
buffer also yields the whole buffer. -/
def sliceLast (l : Bytes) (n : Nat) : Bytes :=
  if n = 0 then l else l.drop (l.length - n)

/-- `decryptKeyData` (vault.js:217-261).  `hmacF macKey message` stands for
node's HMAC-SHA256 (`crypto.createHmac('sha256', …)`), `aesDecF encKey iv
ciphertext` for AES-256-CBC decryption with auto padding disabled
(`crypto.createDecipheriv('aes-256-cbc', …)`).  The slice arithmetic,
the length-field computation, the order of the checks and the error
routing mirror the source line by line. -/
def decryptKeyData (hmacF : Bytes → Bytes → Bytes)
    (aesDecF : Bytes → Bytes → Bytes → Bytes)
    (keypair : Bytes × Bytes) (data : Bytes) (isOpdata01 : Bool) :
    Except DecryptError Bytes :=
  -- `data.readUInt32LE(12)` (evaluated first on line 228) throws a
  -- RangeError when `data.length < 16`.
  if data.length < 16 then .error .rangeError
  -- `check !== 'opdata01'` where `check = data.slice(0, 8).toString()`
  else if isOpdata01 = true ∧ data.take 8 ≠ opdata01Bytes then .error .checksumMismatch
  -- the digest over `data.slice(0, -32)` against the tag `data.slice(-32)`
  else if hmacF keypair.2 (data.take (data.length - 32)) ≠
      data.drop (data.length - 32) then .error .authenticationFailure
  -- `decipher.final()` with auto padding disabled; the ciphertext is
  -- `data.slice(offset + 16, -32)` with `offset = isOpdata01 ? 16 : 0`
  else if ((data.take (data.length - 32)).drop ((if isOpdata01 then 16 else 0) + 16)).length
      % 16 ≠ 0 then .error .decryptionFailure
  -- the IV is `data.slice(offset, offset + 16)`; the plaintext keeps its
  -- trailing `Math.abs(length)` bytes
  else .ok (sliceLast
    (aesDecF keypair.1 ((data.drop (if isOpdata01 then 16 else 0)).take 16)
      ((data.take (data.length - 32)).drop ((if isOpdata01 then 16 else 0) + 16)))
    (lengthField data).natAbs)

/-- `createKeyPair` (vault.js:268-276).  `shaF` stands for SHA-512
(`crypto.createHash('sha512')`), applied only when `digest` is set. -/
def createKeyPair (shaF : Bytes → Bytes) (data : Bytes) (digest : Bool) :
    Bytes × Bytes :=
  let d := if digest then shaF data else data
  (d.take 32, d.drop 32)

/-- Modelled from the spec: the full unsigned 64-bit little-endian declared
length stored at bytes 8..15 of the envelope — the low 32-bit word plus the
high 32-bit word shifted left by 32 bits (spec §4.2 step 4 and §9; the
repository ships no second implementation of this read, so the correct
reconstruction the spec demands is stated here from its words). -/
def declaredLength64 (data : Bytes) : Nat :=
  readUInt32LE data 8 + readUInt32LE data 12 * 4294967296

/-- The 8 little-endian bytes of a 64-bit length value. -/
def lenLE8 (n : Nat) : Bytes :=
  [n % 256, n / 256 % 256, n / 65536 % 256, n / 16777216 % 256,
   n / 4294967296 % 256, n / 1099511627776 % 256,
   n / 281474976710656 % 256, n / 72057594037927936 % 256]

/-- Modelled from the spec: the test-harness inverse of the §4.2 envelope
layout (the repository ships no encryptor or tests).  A well-formed
header-bearing envelope is magic ∥ 64-bit LE declared length ∥ IV ∥
AES-256-CBC ciphertext of (padding ∥ plaintext) — the random
block-alignment padding is prepended — ∥ HMAC-SHA256 tag over all the
preceding bytes.  `aesEncF encKey iv plaintext` stands for AES-256-CBC
encryption. -/
def buildEnvelope (hmacF : Bytes → Bytes → Bytes)
    (aesEncF : Bytes → Bytes → Bytes → Bytes)
    (keypair : Bytes × Bytes) (plaintext pad iv : Bytes) : Bytes :=
  let body := opdata01Bytes ++ (lenLE8 plaintext.length ++ (iv ++ aesEncF keypair.1 iv (pad ++ plaintext)))
  body ++ hmacF keypair.2 body

/-- A row of the `items` table (vault.js:94): `id`, `key_data`,
`overview_data`.  Row ids are opaque; they are modelled as `Nat`. -/
structure ItemRecord where
  id : Nat
  keyData : Bytes
  overviewData : Bytes
deriving DecidableEq, Repr

/-- An element of the `keys` accumulator (vault.js:130-135).  The parsed
`overviewData` JSON is external; the raw decrypted bytes are carried. -/
structure Entry where
  id : Nat
  overviewDataRaw : Bytes
  itemDataKeyPair : Bytes × Bytes
deriving DecidableEq, Repr

/-- A row of the `item_details` table (vault.js:144). -/
structure DetailRecord where
  itemId : Nat
  data : Bytes
deriving DecidableEq, Repr

/-- An element of `this.details` (vault.js:177-181).  `itemDetailRaw = none`
models the `null` stored when the detail failed to decrypt; the JSON-parsed
`itemDetail` field is external. -/
structure DetailEntry where
  itemOverview : Entry
  itemDetailRaw : Option Bytes
deriving DecidableEq, Repr

/-- The key-hierarchy stage of `Vault.constructor` (vault.js:42-91).
`pbkdf2F password salt iterations` stands for
`crypto.pbkdf2(…, 64, 'sha512')`.  The top key pair is the 32/32 split of
the derived 64 bytes; `master_key_data` is opened first and a failure
rejects the chain before `overview_key_data` is touched (both calls sit in
Promise executors, so callback errors and throws alike reject). -/
def unlock (pbkdf2F : Bytes → Bytes → Nat → Bytes)
    (hmacF : Bytes → Bytes → Bytes) (aesDecF : Bytes → Bytes → Bytes → Bytes)
    (shaF : Bytes → Bytes)
    (masterPassword salt : Bytes) (iterations : Nat)
    (masterKeyData overviewKeyData : Bytes) :
    Except DecryptError ((Bytes × Bytes) × (Bytes × Bytes)) :=
  let key := pbkdf2F masterPassword salt iterations
  let masterPasswordKeyPair := (key.take 32, key.drop 32)
  match decryptKeyData hmacF aesDecF masterPasswordKeyPair masterKeyData true with
  | .error e => .error e
  | .ok masterDataKeyData =>
    let masterDataKeyPair := createKeyPair shaF masterDataKeyData true
    match decryptKeyData hmacF aesDecF masterPasswordKeyPair overviewKeyData true with
    | .error e => .error e
    | .ok overviewDataKeyData =>
      .ok (masterDataKeyPair, createKeyPair shaF overviewDataKeyData true)

/-- The per-item loop of `Vault.constructor` (vault.js:102-140).  Both
decryptions use `isOpdata01 = false`.  A callback error from either
decryption produces only a dangling `Promise.reject(err)` whose rejection
is discarded, so the item is skipped and the loop continues; a thrown error
escapes the `.then` callback and rejects the whole chain, so it aborts the
build.  When the decrypted key data is empty (`!keyData.length`) the item
key pair is the overview key pair; otherwise `createKeyPair(keyData)` is
called with `digest` undefined, i.e. no hashing. -/
def buildKeys (hmacF : Bytes → Bytes → Bytes)
    (aesDecF : Bytes → Bytes → Bytes → Bytes) (shaF : Bytes → Bytes)
    (overviewDataKeyPair masterDataKeyPair : Bytes × Bytes) :
    List ItemRecord → Except DecryptError (List Entry)
  | [] => .ok []
  | item :: rest =>
    match decryptKeyData hmacF aesDecF overviewDataKeyPair item.overviewData false with
    | .error .checksumMismatch =>
        buildKeys hmacF aesDecF shaF overviewDataKeyPair masterDataKeyPair rest
    | .error .authenticationFailure =>
        buildKeys hmacF aesDecF shaF overviewDataKeyPair masterDataKeyPair rest
    | .error e => .error e
    | .ok overviewData =>
      match decryptKeyData hmacF aesDecF masterDataKeyPair item.keyData false with
      | .error .checksumMismatch =>
          buildKeys hmacF aesDecF shaF overviewDataKeyPair masterDataKeyPair rest
      | .error .authenticationFailure =>
          buildKeys hmacF aesDecF shaF overviewDataKeyPair masterDataKeyPair rest
      | .error e => .error e
      | .ok keyData =>
        let itemDataKeyPair :=
          if keyData.length = 0 then overviewDataKeyPair
          else createKeyPair shaF keyData false
        match buildKeys hmacF aesDecF shaF overviewDataKeyPair masterDataKeyPair rest with
        | .error e => .error e
        | .ok keys =>
          .ok ({ id := item.id, overviewDataRaw := overviewData,
                 itemDataKeyPair := itemDataKeyPair } :: keys)

/-- The item-detail loop of `Vault.constructor` (vault.js:155-190).  A
detail whose `item_id` matches no entry is skipped.  Decryption uses
`isOpdata01 = true`; a callback error (`checksumMismatch` or
`authenticationFailure`) is deliberately ignored and the entry is stored
with a `null` detail, while a thrown error rejects that detail's promise
and hence `Promise.all`, making the whole resolution fail (the entries
accumulated by the `forEach` are then unobservable, since `dbPromise`
rejects). -/
def resolveDetails (hmacF : Bytes → Bytes → Bytes)
    (aesDecF : Bytes → Bytes → Bytes → Bytes) (entries : List Entry) :
    List DetailRecord → Except DecryptError (List DetailEntry)
  | [] => .ok []
  | detail :: ds =>
    match entries.find? (fun e => e.id == detail.itemId) with
    | none => resolveDetails hmacF aesDecF entries ds
    | some itemOverview =>
      match decryptKeyData hmacF aesDecF itemOverview.itemDataKeyPair detail.data true with
      | .ok itemDetail =>
        match resolveDetails hmacF aesDecF entries ds with
        | .error e => .error e
        | .ok res => .ok (⟨itemOverview, some itemDetail⟩ :: res)
      | .error .checksumMismatch =>
        match resolveDetails hmacF aesDecF entries ds with
        | .error e => .error e
        | .ok res => .ok (⟨itemOverview, none⟩ :: res)
      | .error .authenticationFailure =>
        match resolveDetails hmacF aesDecF entries ds with
        | .error e => .error e
        | .ok res => .ok (⟨itemOverview, none⟩ :: res)
      | .error e => .error e

/-- `Vault.search` rejects with no value when nothing matches; the single
rejection reason is modelled as `noMatch`. -/
inductive SearchError where
  | noMatch
deriving DecidableEq, Repr

/-- `Vault.search` (vault.js:197-207).  `titleOf` stands for the external
JSON parse composed with the `.title` projection
(`detail.itemOverview.overviewData.title`); it returns `none` when the
parsed overview has no title.  The filter is exact (`===`) equality. -/
def search (titleOf : Bytes → Option String) (details : List DetailEntry)
    (title : String) : Except SearchError (List DetailEntry) :=
  let items := details.filter
    (fun detail => titleOf detail.itemOverview.overviewDataRaw == some title)
  if items.isEmpty then .error .noMatch else .ok items

/-- The whole unlock pipeline of `Vault.constructor`: key hierarchy, then
the per-item loop, then the detail loop.  Each stage's failure rejects
`dbPromise` and makes the vault unusable. -/
def vaultUnlock (pbkdf2F : Bytes → Bytes → Nat → Bytes)
    (hmacF : Bytes → Bytes → Bytes) (aesDecF : Bytes → Bytes → Bytes → Bytes)
    (shaF : Bytes → Bytes)
    (masterPassword salt : Bytes) (iterations : Nat)
    (masterKeyData overviewKeyData : Bytes)
    (items : List ItemRecord) (details : List DetailRecord) :
    Except DecryptError (List DetailEntry) :=
  match unlock pbkdf2F hmacF aesDecF shaF masterPassword salt iterations
      masterKeyData overviewKeyData with
  | .error e => .error e
  | .ok (masterDataKeyPair, overviewDataKeyPair) =>
    match buildKeys hmacF aesDecF shaF overviewDataKeyPair masterDataKeyPair items with
    | .error e => .error e
    | .ok keys => resolveDetails hmacF aesDecF keys details

/-- Concrete stand-in for HMAC-SHA256 used by witnesses: a constant
32-byte digest. -/
def cHmac : Bytes → Bytes → Bytes := fun _ _ => List.replicate 32 0

/-- Concrete stand-in for AES-256-CBC used by witnesses: the identity
cipher (encryption and decryption are both the identity on the data
argument, a valid inverse pair). -/
def cCipher : Bytes → Bytes → Bytes → Bytes := fun _ _ ct => ct

/-- Concrete stand-in for SHA-512 used by witnesses: a constant 64-byte
digest. -/
def cSha : Bytes → Bytes := fun _ => List.range 64

/-- Concrete stand-in for PBKDF2-HMAC-SHA512 used by witnesses: a constant
64-byte key. -/
def cPbkdf2 : Bytes → Bytes → Nat → Bytes := fun _ _ _ => List.range 64

/-- Concrete stand-in for JSON-parse-then-title used by witnesses: every
overview carries the title `"a"`. -/
def cTitleOf : Bytes → Option String := fun _ => some "a"

/-- A concrete key pair for witnesses. -/
def cKeyPair : Bytes × Bytes := (List.replicate 32 0, List.replicate 32 0)

/-- An envelope whose bytes 8..15 declare the 64-bit little-endian length
2^32 (low word 0, high word 1); the remaining bytes are irrelevant to the
length computation. -/
def cBadLenData : Bytes := List.replicate 8 0 ++ ([0, 0, 0, 0, 1, 0, 0, 0] ++ List.replicate 48 0)

/-- A header-bearing envelope whose first 8 bytes are not `"opdata01"`. -/
def cMagicBadData : Bytes := List.replicate 64 3

/-- A headerless envelope whose trailing 32-byte tag (all ones) differs
from the constant digest `cHmac` produces (all zeros). -/
def cAuthBadData : Bytes := List.replicate 32 0 ++ List.replicate 32 1

/-- A concrete all-zero initialization vector. -/
def cIV : Bytes := List.replicate 16 0

/-- The tag `cHmac` produces, making an envelope authenticate. -/
def cTagOK : Bytes := List.replicate 32 0

/-- A tag differing from every `cHmac` digest. -/
def cTagBad : Bytes := List.replicate 32 1

/-- A valid header-bearing envelope declaring length 16 whose (identity-
cipher) plaintext is sixteen 9s. -/
def cMasterKeyData : Bytes :=
  opdata01Bytes ++ (lenLE8 16 ++ (cIV ++ (List.replicate 16 9 ++ cTagOK)))

/-- A valid header-bearing envelope declaring length 16 whose (identity-
cipher) plaintext is sixteen 4s. -/
def cOverviewKeyData : Bytes :=
  opdata01Bytes ++ (lenLE8 16 ++ (cIV ++ (List.replicate 16 4 ++ cTagOK)))

/-- `cMasterKeyData` with its trailing tag corrupted. -/
def cMasterKeyDataBad : Bytes :=
  opdata01Bytes ++ (lenLE8 16 ++ (cIV ++ (List.replicate 16 9 ++ cTagBad)))

/-- A valid headerless envelope with empty ciphertext: it decrypts to the
empty buffer. -/
def cEmptyEnvelope : Bytes := cIV ++ cTagOK

/-- A valid headerless envelope whose declared length (read from inside the
IV region, all zeros) is 0, so the whole 64-byte identity-cipher plaintext
of 5s is returned. -/
def cKeyEnvelope : Bytes := cIV ++ (List.replicate 64 5 ++ cTagOK)

/-- An item whose overview and key envelopes both decrypt (to empty key
data, so its key pair falls back to the overview pair). -/
def cGoodItem : ItemRecord := ⟨1, cEmptyEnvelope, cEmptyEnvelope⟩

/-- An item whose overview envelope fails authentication (its tag is all
ones while the digest is all zeros). -/
def cBadItem : ItemRecord := ⟨2, cEmptyEnvelope, cAuthBadData⟩

/-- A concrete entry with id 1 used by index-level witnesses. -/
def cEntryOne : Entry := ⟨1, [], cKeyPair⟩

/-- A detail record for item 1 carrying a valid envelope (plaintext sixteen
9s under the concrete primitives). -/
def cDetailOK : DetailRecord := ⟨1, cMasterKeyData⟩

/-- The resolution of two copies of `cDetailOK` against `cEntryOne`. -/
def cResolvedTwo : List DetailEntry :=
  [⟨cEntryOne, some (List.replicate 16 9)⟩, ⟨cEntryOne, some (List.replicate 16 9)⟩]

/-- C1: the claim says the declared plaintext length is reconstructed as the
full unsigned 64-bit little-endian integer at bytes 8..15 (low word plus
high word shifted left by 32 bits).  The code (vault.js:228) instead shifts
the high word left by only 8 bits: on an envelope declaring length 2^32 it
computes 256, not 4294967296, contradicting its own comment
(vault.js:220, "Length, unsigned 64 bit little endian") and the spec's
required reconstruction (`declaredLength64`). -/
theorem lengthField_shift_bug :
    lengthField cBadLenData = 256 ∧ declaredLength64 cBadLenData = 4294967296 ∧
      lengthField cBadLenData ≠ (declaredLength64 cBadLenData : Int) := by
  refine ⟨by decide, by decide, by decide⟩

/-- C3: a header-bearing envelope (at least 16 bytes, so the length read
does not throw) whose first 8 bytes differ from `"opdata01"` makes
`decryptKeyData` fail with the checksum error, for every HMAC function and
every trailing tag — in particular before any MAC computation or
comparison, and even when the tag is invalid. -/
theorem open_magic_mismatch (hmacF : Bytes → Bytes → Bytes)
    (aesDecF : Bytes → Bytes → Bytes → Bytes) (keypair : Bytes × Bytes)
    (data : Bytes) (h16 : 16 ≤ data.length)
    (hmagic : data.take 8 ≠ opdata01Bytes) :
    decryptKeyData hmacF aesDecF keypair data true = .error .checksumMismatch := by
  have h1 : ¬ data.length < 16 := by omega
  simp only [decryptKeyData, if_neg h1]
  rw [if_pos ⟨by trivial, hmagic⟩]

/-- C3 witness: a concrete 64-byte envelope of 3s is rejected as a checksum
mismatch. -/
theorem open_magic_mismatch_witness :
    decryptKeyData cHmac cCipher cKeyPair cMagicBadData true = .error .checksumMismatch :=
  open_magic_mismatch cHmac cCipher cKeyPair cMagicBadData (by decide) (by decide)

/-- C4: when the magic check passes (or the envelope has no magic header),
an HMAC digest over all bytes but the trailing 32 that differs from that
trailing tag makes `decryptKeyData` fail with the authentication error, for
every AES decryption function — i.e. no decryption is attempted. -/
theorem open_auth_failure (hmacF : Bytes → Bytes → Bytes)
    (aesDecF : Bytes → Bytes → Bytes → Bytes) (keypair : Bytes × Bytes)
    (data : Bytes) (isOpdata01 : Bool) (h16 : 16 ≤ data.length)
    (hmagic : isOpdata01 = true → data.take 8 = opdata01Bytes)
    (hfail : hmacF keypair.2 (data.take (data.length - 32)) ≠ data.drop (data.length - 32)) :
    decryptKeyData hmacF aesDecF keypair data isOpdata01 = .error .authenticationFailure := by
  have h1 : ¬ data.length < 16 := by omega
  have h2 : ¬ (isOpdata01 = true ∧ data.take 8 ≠ opdata01Bytes) := by
    rintro ⟨h, hne⟩; exact hne (hmagic h)
  simp only [decryptKeyData, if_neg h1, if_neg h2]
  rw [if_pos hfail]

/-- C4 witness: a concrete headerless envelope whose tag is all ones while
the digest is all zeros is rejected as an authentication failure. -/
theorem open_auth_failure_witness :
    decryptKeyData cHmac cCipher cKeyPair cAuthBadData false = .error .authenticationFailure :=
  open_auth_failure cHmac cCipher cKeyPair cAuthBadData false (by decide)
    (fun h => nomatch h) (by decide)

/-- C5: `unlock` derives the top key pair from PBKDF2 output (32/32 split),
opens `master_key_data` and `overview_key_data` as magic-header envelopes
with it, and builds each tier's key pair as the 32/32 split of the SHA-512
hash of the decrypted raw key material.  If opening `master_key_data`
fails, the error is propagated unchanged and the result does not depend on
`overview_key_data` at all — it is never opened and no partial hierarchy is
produced. -/
theorem unlock_hierarchy_spec (pbkdf2F : Bytes → Bytes → Nat → Bytes)
    (hmacF : Bytes → Bytes → Bytes) (aesDecF : Bytes → Bytes → Bytes → Bytes)
    (shaF : Bytes → Bytes) (masterPassword salt : Bytes) (iterations : Nat)
    (masterKeyData overviewKeyData : Bytes) :
    (∀ e, decryptKeyData hmacF aesDecF
        ((pbkdf2F masterPassword salt iterations).take 32,
         (pbkdf2F masterPassword salt iterations).drop 32) masterKeyData true = .error e →
      unlock pbkdf2F hmacF aesDecF shaF masterPassword salt iterations
          masterKeyData overviewKeyData = .error e ∧
      ∀ overviewKeyData',
        unlock pbkdf2F hmacF aesDecF shaF masterPassword salt iterations
            masterKeyData overviewKeyData' =
        unlock pbkdf2F hmacF aesDecF shaF masterPassword salt iterations
            masterKeyData overviewKeyData) ∧
    (∀ masterRaw overviewRaw,
      decryptKeyData hmacF aesDecF
        ((pbkdf2F masterPassword salt iterations).take 32,
         (pbkdf2F masterPassword salt iterations).drop 32) masterKeyData true = .ok masterRaw →
      decryptKeyData hmacF aesDecF
        ((pbkdf2F masterPassword salt iterations).take 32,
         (pbkdf2F masterPassword salt iterations).drop 32) overviewKeyData true = .ok overviewRaw →
      unlock pbkdf2F hmacF aesDecF shaF masterPassword salt iterations
          masterKeyData overviewKeyData =
        .ok (((shaF masterRaw).take 32, (shaF masterRaw).drop 32),
             ((shaF overviewRaw).take 32, (shaF overviewRaw).drop 32))) := by
  constructor
  · intro e he
    constructor
    · simp only [unlock, he]
    · intro ovd'
      simp only [unlock, he]
  · intro masterRaw overviewRaw h1 h2
    simp only [unlock, h1, h2, createKeyPair, if_pos]

/-- C5 witness: with concrete primitives, a corrupted master envelope makes
`unlock` fail with the authentication error, and intact envelopes produce
exactly the hashed-and-split key pairs. -/
theorem unlock_hierarchy_spec_witness :
    unlock cPbkdf2 cHmac cCipher cSha [7] [0] 2 cMasterKeyDataBad cOverviewKeyData =
      .error .authenticationFailure ∧
    unlock cPbkdf2 cHmac cCipher cSha [7] [0] 2 cMasterKeyData cOverviewKeyData =
      .ok (((cSha (List.replicate 16 9)).take 32, (cSha (List.replicate 16 9)).drop 32),
           ((cSha (List.replicate 16 4)).take 32, (cSha (List.replicate 16 4)).drop 32)) :=
  ⟨((unlock_hierarchy_spec cPbkdf2 cHmac cCipher cSha [7] [0] 2
      cMasterKeyDataBad cOverviewKeyData).1 .authenticationFailure (by decide)).1,
   (unlock_hierarchy_spec cPbkdf2 cHmac cCipher cSha [7] [0] 2
      cMasterKeyData cOverviewKeyData).2 (List.replicate 16 9) (List.replicate 16 4)
      (by decide) (by decide)⟩

/-- C6: when an item's overview and key-data envelopes both decrypt, the
entry built for it carries `itemKeyPair = overviewKeyPair` if the decrypted
key data is empty, and otherwise the plain 32/32 split of the raw key data
— for every hash function `shaF`, i.e. with no SHA-512 step before the
split. -/
theorem buildKeys_itemKeyPair (hmacF : Bytes → Bytes → Bytes)
    (aesDecF : Bytes → Bytes → Bytes → Bytes) (shaF : Bytes → Bytes)
    (ovKP mKP : Bytes × Bytes) (item : ItemRecord) (rest : List ItemRecord)
    (tl : List Entry) (ovRaw keyRaw : Bytes)
    (h1 : decryptKeyData hmacF aesDecF ovKP item.overviewData false = .ok ovRaw)
    (h2 : decryptKeyData hmacF aesDecF mKP item.keyData false = .ok keyRaw)
    (h3 : buildKeys hmacF aesDecF shaF ovKP mKP rest = .ok tl) :
    buildKeys hmacF aesDecF shaF ovKP mKP (item :: rest) =
      .ok ({ id := item.id, overviewDataRaw := ovRaw,
             itemDataKeyPair := if keyRaw = [] then ovKP
               else (keyRaw.take 32, keyRaw.drop 32) } :: tl) := by
  simp only [buildKeys, h1, h2, h3, createKeyPair, List.length_eq_zero,
    Bool.false_eq_true, if_false]

/-- C6 witness: an item with a 64-byte decrypted key datum gets its plain
split (no hashing, under the constant `cSha`), and an item with empty key
datum falls back to the overview key pair. -/
theorem buildKeys_itemKeyPair_witness :
    buildKeys cHmac cCipher cSha cKeyPair cKeyPair [⟨1, cKeyEnvelope, cEmptyEnvelope⟩] =
      .ok [{ id := 1, overviewDataRaw := [],
             itemDataKeyPair := if (List.replicate 64 5 : Bytes) = [] then cKeyPair
               else ((List.replicate 64 5 : Bytes).take 32, (List.replicate 64 5 : Bytes).drop 32) }] ∧
    buildKeys cHmac cCipher cSha cKeyPair cKeyPair [⟨3, cEmptyEnvelope, cEmptyEnvelope⟩] =
      .ok [{ id := 3, overviewDataRaw := [],
             itemDataKeyPair := if ([] : Bytes) = [] then cKeyPair
               else (([] : Bytes).take 32, ([] : Bytes).drop 32) }] :=
  ⟨buildKeys_itemKeyPair cHmac cCipher cSha cKeyPair cKeyPair
      ⟨1, cKeyEnvelope, cEmptyEnvelope⟩ [] [] [] (List.replicate 64 5)
      (by decide) (by decide) rfl,
   buildKeys_itemKeyPair cHmac cCipher cSha cKeyPair cKeyPair
      ⟨3, cEmptyEnvelope, cEmptyEnvelope⟩ [] [] [] []
      (by decide) (by decide) rfl⟩

/-- C7: the claim says a decryption failure on any single item's overview is
fatal to the whole unlock.  In the code the failure only produces
`return Promise.reject(err)` inside a synchronous callback (vault.js:112);
that rejected promise is discarded, so the item is silently skipped and the
pipeline resolves: with one item whose overview envelope fails
authentication and one good item, `buildKeys` succeeds with just the good
entry, and the whole `vaultUnlock` succeeds — it does not fail as the claim
(and the code's own evident intent to reject) requires. -/
theorem buildKeys_skips_failed_overview :
    buildKeys cHmac cCipher cSha cKeyPair cKeyPair [cBadItem, cGoodItem] =
      .ok [{ id := 1, overviewDataRaw := [], itemDataKeyPair := cKeyPair }] ∧
    vaultUnlock cPbkdf2 cHmac cCipher cSha [7] [0] 2 cMasterKeyData cOverviewKeyData
      [cBadItem, cGoodItem] [] = .ok [] :=
  ⟨by decide, by decide⟩

/-- C9: `search` succeeds with exactly the index elements whose overview
title (obtained by the external JSON parse `titleOf`) equals the requested
title under exact `===` equality, and fails with `noMatch` precisely when
no element matches — in particular when the index is empty. -/
theorem search_exact_title (titleOf : Bytes → Option String)
    (details : List DetailEntry) (title : String) :
    (search titleOf details title = .error .noMatch ↔
      ∀ d ∈ details, titleOf d.itemOverview.overviewDataRaw ≠ some title) ∧
    (∀ res, search titleOf details title = .ok res →
      ∀ d, d ∈ res ↔ d ∈ details ∧ titleOf d.itemOverview.overviewDataRaw = some title) := by
  have hfil : ∀ d : DetailEntry,
      d ∈ details.filter (fun de => titleOf de.itemOverview.overviewDataRaw == some title) ↔
        d ∈ details ∧ titleOf d.itemOverview.overviewDataRaw = some title := by
    intro d
    rw [List.mem_filter]
    simp only [beq_iff_eq]
  constructor
  · constructor
    · intro hs d hd heq
      simp only [search] at hs
      split at hs
      · next hempty =>
        rw [List.isEmpty_iff] at hempty
        have hmem := (hfil d).2 ⟨hd, heq⟩
        rw [hempty] at hmem
        exact (List.not_mem_nil d) hmem
      · simp at hs
    · intro hall
      simp only [search]
      have hnil : details.filter
          (fun de => titleOf de.itemOverview.overviewDataRaw == some title) = [] := by
        refine List.filter_eq_nil_iff.2 (fun d hd => ?_)
        simp only [beq_iff_eq]
        exact fun h => hall d hd h
      rw [hnil]
      rfl
  · intro res hs d
    simp only [search] at hs
    split at hs
    · simp at hs
    · injection hs with h'
      rw [← h']
      exact hfil d

/-- C9 witness: a one-element index with a matching title is characterized
by the filter equivalence, and the empty index yields `noMatch`. -/
theorem search_exact_title_witness :
    ((⟨⟨1, [], cKeyPair⟩, none⟩ : DetailEntry) ∈ [(⟨⟨1, [], cKeyPair⟩, none⟩ : DetailEntry)] ↔
      (⟨⟨1, [], cKeyPair⟩, none⟩ : DetailEntry) ∈ [(⟨⟨1, [], cKeyPair⟩, none⟩ : DetailEntry)] ∧
        cTitleOf (⟨⟨1, [], cKeyPair⟩, none⟩ : DetailEntry).itemOverview.overviewDataRaw = some "a") ∧
    (search cTitleOf [] "a" = .error .noMatch ↔
      ∀ d ∈ ([] : List DetailEntry), cTitleOf d.itemOverview.overviewDataRaw ≠ some "a") :=
  ⟨(search_exact_title cTitleOf [⟨⟨1, [], cKeyPair⟩, none⟩] "a").2
      [⟨⟨1, [], cKeyPair⟩, none⟩] rfl ⟨⟨1, [], cKeyPair⟩, none⟩,
   (search_exact_title cTitleOf [] "a").1⟩

/-- C8 counterexample: the claim says a failure of `decryptKeyData` on a
detail's data is never propagated.  But only the callback-delivered errors
are caught; a *thrown* error — here the RangeError from reading the length
field of an empty detail buffer — escapes into the Promise executor and
rejects the whole resolution: `resolveDetails` fails instead of storing a
null detail. -/
theorem resolveDetails_thrown_cex :
    decryptKeyData cHmac cCipher cKeyPair ([] : Bytes) true = .error .rangeError ∧
    resolveDetails cHmac cCipher [⟨1, [], cKeyPair⟩] [⟨1, []⟩] = .error .rangeError :=
  ⟨by decide, by decide⟩

/-- C8 amended: a detail record whose `item_id` matches no entry is skipped
without error; a detail whose decryption fails with one of the
callback-delivered errors (`checksumMismatch` or `authenticationFailure`)
yields an entry with a null detail and does not disturb the resolution of
the remaining records — the resolution still succeeds with the other
entries intact.  (Thrown errors — short buffer, misaligned ciphertext —
do propagate; see the counterexample.) -/
theorem resolveDetails_tolerance (hmacF : Bytes → Bytes → Bytes)
    (aesDecF : Bytes → Bytes → Bytes → Bytes) (entries : List Entry)
    (d : DetailRecord) (ds : List DetailRecord) (res : List DetailEntry) :
    (entries.find? (fun e => e.id == d.itemId) = none →
      resolveDetails hmacF aesDecF entries (d :: ds) =
        resolveDetails hmacF aesDecF entries ds) ∧
    (∀ e, entries.find? (fun e => e.id == d.itemId) = some e →
      (decryptKeyData hmacF aesDecF e.itemDataKeyPair d.data true = .error .checksumMismatch ∨
       decryptKeyData hmacF aesDecF e.itemDataKeyPair d.data true = .error .authenticationFailure) →
      resolveDetails hmacF aesDecF entries ds = .ok res →
      resolveDetails hmacF aesDecF entries (d :: ds) = .ok (⟨e, none⟩ :: res)) := by
  constructor
  · intro h
    simp only [resolveDetails, h]
  · intro e hf herr hres
    rcases herr with h | h <;> simp only [resolveDetails, hf, h, hres]

/-- C8 amended witness: a detail referencing an unknown item is skipped,
and a detail failing authentication is stored with a null detail while the
resolution succeeds. -/
theorem resolveDetails_tolerance_witness :
    resolveDetails cHmac cCipher [⟨1, [], cKeyPair⟩] [⟨99, []⟩] =
      resolveDetails cHmac cCipher [⟨1, [], cKeyPair⟩] [] ∧
    resolveDetails cHmac cCipher [⟨1, [], cKeyPair⟩] [⟨1, cMasterKeyDataBad⟩] =
      .ok [⟨⟨1, [], cKeyPair⟩, none⟩] :=
  ⟨(resolveDetails_tolerance cHmac cCipher [⟨1, [], cKeyPair⟩] ⟨99, []⟩ [] []).1 (by decide),
   (resolveDetails_tolerance cHmac cCipher [⟨1, [], cKeyPair⟩] ⟨1, cMasterKeyDataBad⟩ [] []).2
      ⟨1, [], cKeyPair⟩ (by decide) (Or.inr (by decide)) rfl⟩

/-- Helper for C10: when some entry carries id `i`, a successful detail
resolution contains exactly as many elements tagged with overview id `i` as
there are detail records with `item_id = i` (each matched record pushes
exactly one element, decrypted or null). -/
theorem resolveDetails_count (hmacF : Bytes → Bytes → Bytes)
    (aesDecF : Bytes → Bytes → Bytes → Bytes) (entries : List Entry) (i : Nat)
    (hex : ∃ e ∈ entries, e.id = i) :
    ∀ details res, resolveDetails hmacF aesDecF entries details = .ok res →
      res.countP (fun de => de.itemOverview.id == i) =
        details.countP (fun d => d.itemId == i) := by
  intro details
  induction details with
  | nil =>
    intro res h
    simp only [resolveDetails] at h
    injection h with h'
    rw [← h']
    rfl
  | cons d ds ih =>
    intro res h
    simp only [resolveDetails] at h
    rcases hf : entries.find? (fun e => e.id == d.itemId) with _ | e0
    · simp only [hf] at h
      obtain ⟨e, he, hei⟩ := hex
      have hdi : d.itemId ≠ i := by
        intro hdi
        rw [List.find?_eq_none] at hf
        exact hf e he (by rw [beq_iff_eq]; omega)
      rw [List.countP_cons]
      simp only [beq_iff_eq, hdi, if_false]
      simpa using ih res h
    · have he0 : e0.id = d.itemId := by
        have h1 := List.find?_some hf
        simpa [beq_iff_eq] using h1
      simp only [hf] at h
      rcases hdec : decryptKeyData hmacF aesDecF e0.itemDataKeyPair d.data true with ee | pt
      · cases ee <;> simp only [hdec] at h
        case checksumMismatch =>
          rcases hr : resolveDetails hmacF aesDecF entries ds with e1 | r'
          · simp only [hr] at h
            exact Except.noConfusion h
          · simp only [hr] at h
            injection h with h'
            rw [← h']
            simp only [List.countP_cons]
            rw [ih r' hr, he0]
        case authenticationFailure =>
          rcases hr : resolveDetails hmacF aesDecF entries ds with e1 | r'
          · simp only [hr] at h
            exact Except.noConfusion h
          · simp only [hr] at h
            injection h with h'
            rw [← h']
            simp only [List.countP_cons]
            rw [ih r' hr, he0]
        case rangeError => exact Except.noConfusion h
        case decryptionFailure => exact Except.noConfusion h
      · simp only [hdec] at h
        rcases hr : resolveDetails hmacF aesDecF entries ds with e1 | r'
        · simp only [hr] at h
          exact Except.noConfusion h
        · simp only [hr] at h
          injection h with h'
          rw [← h']
          simp only [List.countP_cons]
          rw [ih r' hr, he0]

/-- Helper for C10: every element of a successful detail resolution carries
an overview found among the entries (the `keys.find` result). -/
theorem resolveDetails_overview_mem (hmacF : Bytes → Bytes → Bytes)
    (aesDecF : Bytes → Bytes → Bytes → Bytes) (entries : List Entry) :
    ∀ details res, resolveDetails hmacF aesDecF entries details = .ok res →
      ∀ de ∈ res, de.itemOverview ∈ entries := by
  intro details
  induction details with
  | nil =>
    intro res h de hde
    simp only [resolveDetails] at h
    injection h with h'
    rw [← h'] at hde
    exact absurd hde (List.not_mem_nil de)
  | cons d ds ih =>
    intro res h de hde
    simp only [resolveDetails] at h
    rcases hf : entries.find? (fun e => e.id == d.itemId) with _ | e0
    · simp only [hf] at h
      exact ih res h de hde
    · have hmem : e0 ∈ entries := List.mem_of_find?_eq_some hf
      simp only [hf] at h
      rcases hdec : decryptKeyData hmacF aesDecF e0.itemDataKeyPair d.data true with ee | pt
      · cases ee <;> simp only [hdec] at h
        case checksumMismatch =>
          rcases hr : resolveDetails hmacF aesDecF entries ds with e1 | r'
          · simp only [hr] at h
            exact Except.noConfusion h
          · simp only [hr] at h
            injection h with h'
            rw [← h'] at hde
            rcases List.mem_cons.1 hde with h2 | h2
            · rw [h2]
              exact hmem
            · exact ih r' hr de h2
        case authenticationFailure =>
          rcases hr : resolveDetails hmacF aesDecF entries ds with e1 | r'
          · simp only [hr] at h
            exact Except.noConfusion h
          · simp only [hr] at h
            injection h with h'
            rw [← h'] at hde
            rcases List.mem_cons.1 hde with h2 | h2
            · rw [h2]
              exact hmem
            · exact ih r' hr de h2
        case rangeError => exact Except.noConfusion h
        case decryptionFailure => exact Except.noConfusion h
      · simp only [hdec] at h
        rcases hr : resolveDetails hmacF aesDecF entries ds with e1 | r'
        · simp only [hr] at h
          exact Except.noConfusion h
        · simp only [hr] at h
          injection h with h'
          rw [← h'] at hde
          rcases List.mem_cons.1 hde with h2 | h2
          · rw [h2]
            exact hmem
          · exact ih r' hr de h2

/-- C10: the searchable index is populated one element per detail record.
If some entry carries id `i`, the successful resolution holds exactly one
element per detail record with `item_id = i` (so an item with several
matching detail records appears once per record); and an item id with no
detail record at all never appears in any successful search result, for
every title function and requested title. -/
theorem detailIndex_per_record (hmacF : Bytes → Bytes → Bytes)
    (aesDecF : Bytes → Bytes → Bytes → Bytes) (entries : List Entry)
    (details : List DetailRecord) (res : List DetailEntry) (i : Nat)
    (hres : resolveDetails hmacF aesDecF entries details = .ok res) :
    ((∃ e ∈ entries, e.id = i) →
      res.countP (fun de => de.itemOverview.id == i) =
        details.countP (fun d => d.itemId == i)) ∧
    (details.countP (fun d => d.itemId == i) = 0 →
      ∀ titleOf title out, search titleOf res title = .ok out →
        ∀ de ∈ out, de.itemOverview.id ≠ i) := by
  constructor
  · intro hex
    exact resolveDetails_count hmacF aesDecF entries i hex details res hres
  · intro h0 titleOf title out hout de hde hdei
    have hmem : de ∈ res := by
      simp only [search] at hout
      split at hout
      · simp at hout
      · injection hout with h'
        rw [← h'] at hde
        exact (List.mem_filter.1 hde).1
    by_cases hex : ∃ e ∈ entries, e.id = i
    · have hc := resolveDetails_count hmacF aesDecF entries i hex details res hres
      rw [h0] at hc
      have hpos : 0 < res.countP (fun de => de.itemOverview.id == i) :=
        List.countP_pos_iff.2 ⟨de, hmem, by simp [hdei]⟩
      omega
    · exact hex ⟨de.itemOverview,
        resolveDetails_overview_mem hmacF aesDecF entries details res hres de hmem, hdei⟩

/-- C10 witness: with one entry of id 1 and two detail records for item 1,
the resolution holds one element per record (count 2 on each side), and an
id with no detail record (2) never appears in a search result. -/
theorem detailIndex_per_record_witness :
    cResolvedTwo.countP (fun de => de.itemOverview.id == 1) =
      [cDetailOK, cDetailOK].countP (fun d => d.itemId == 1) ∧
    (⟨cEntryOne, some (List.replicate 16 9)⟩ : DetailEntry).itemOverview.id ≠ 2 :=
  ⟨(detailIndex_per_record cHmac cCipher [cEntryOne] [cDetailOK, cDetailOK]
      cResolvedTwo 1 (by decide)).1 (by decide),
   (detailIndex_per_record cHmac cCipher [cEntryOne] [cDetailOK, cDetailOK]
      cResolvedTwo 2 (by decide)).2 (by decide) cTitleOf "a" cResolvedTwo rfl
      ⟨cEntryOne, some (List.replicate 16 9)⟩ (by decide)⟩

/-- Reading a 32-bit word at `off` is reading at 0 after dropping `off`
bytes. -/
theorem readUInt32LE_drop (data : Bytes) (off : Nat) :
    readUInt32LE data off = readUInt32LE (data.drop off) 0 := rfl

/-- The low 32-bit word of the 8 length bytes recovers a value below 2^32. -/
theorem lenLE8_low (n : Nat) (hn : n < 4294967296) (rest : Bytes) :
    readUInt32LE (lenLE8 n ++ rest) 0 = n := by
  have h : readUInt32LE (lenLE8 n ++ rest) 0 =
      n % 256 + n / 256 % 256 * 256 + n / 65536 % 256 * 65536 +
        n / 16777216 % 256 * 16777216 := rfl
  rw [h]
  omega

/-- The high 32-bit word of the 8 length bytes of a value below 2^32 is 0. -/
theorem lenLE8_high (n : Nat) (hn : n < 4294967296) (rest : Bytes) :
    readUInt32LE (lenLE8 n ++ rest) 4 = 0 := by
  have h : readUInt32LE (lenLE8 n ++ rest) 4 =
      n / 4294967296 % 256 + n / 1099511627776 % 256 * 256 +
        n / 281474976710656 % 256 * 65536 +
        n / 72057594037927936 % 256 * 16777216 := rfl
  rw [h]
  omega

/-- Helper for C2: opening a structurally well-formed header-bearing
envelope — correct magic, authenticating tag, 16-byte IV, block-aligned
ciphertext, declared length `n < 2^32` — succeeds and returns the trailing
`n` bytes of the decrypted ciphertext (the whole decryption when `n = 0`,
by the `slice(-0)` behaviour). -/
theorem open_wellformed (hmacF : Bytes → Bytes → Bytes)
    (aesDecF : Bytes → Bytes → Bytes → Bytes) (kp : Bytes × Bytes)
    (iv ct tag : Bytes) (n : Nat)
    (hn : n < 4294967296) (hiv : iv.length = 16) (htag : tag.length = 32)
    (hhmac : hmacF kp.2 (opdata01Bytes ++ (lenLE8 n ++ (iv ++ ct))) = tag)
    (hblocks : ct.length % 16 = 0) :
    decryptKeyData hmacF aesDecF kp
        ((opdata01Bytes ++ (lenLE8 n ++ (iv ++ ct))) ++ tag) true =
      .ok (sliceLast (aesDecF kp.1 iv ct) n) := by
  have h8 : (opdata01Bytes : Bytes).length = 8 := rfl
  have hl8 : (lenLE8 n).length = 8 := rfl
  set A := opdata01Bytes ++ (lenLE8 n ++ (iv ++ ct)) with hA
  have hAlen : A.length = 32 + ct.length := by
    rw [hA]
    simp only [List.length_append, h8, hl8, hiv]
    omega
  have hdlen : (A ++ tag).length = ct.length + 64 := by
    simp only [List.length_append, hAlen, htag]
    omega
  have htake8 : (A ++ tag).take 8 = opdata01Bytes := by
    rw [hA, List.append_assoc]
    exact List.take_left' h8
  have hmacdata : (A ++ tag).take ((A ++ tag).length - 32) = A := by
    apply List.take_left'
    omega
  have hmaccheck : (A ++ tag).drop ((A ++ tag).length - 32) = tag := by
    apply List.drop_left'
    omega
  have hivext : ((A ++ tag).drop 16).take 16 = iv := by
    have hsplit : A ++ tag = (opdata01Bytes ++ lenLE8 n) ++ (iv ++ (ct ++ tag)) := by
      rw [hA]
      simp [List.append_assoc]
    rw [hsplit, List.drop_left' (by simp [h8, hl8] :
      ((opdata01Bytes : Bytes) ++ lenLE8 n).length = 16)]
    exact List.take_left' hiv
  have hctext : A.drop 32 = ct := by
    have hsplit : A = (opdata01Bytes ++ (lenLE8 n ++ iv)) ++ ct := by
      rw [hA]
      simp [List.append_assoc]
    rw [hsplit]
    apply List.drop_left'
    simp [h8, hl8, hiv]
  have hdrop8 : (A ++ tag).drop 8 = lenLE8 n ++ ((iv ++ ct) ++ tag) := by
    have hsplit : A ++ tag = opdata01Bytes ++ (lenLE8 n ++ ((iv ++ ct) ++ tag)) := by
      rw [hA]
      simp [List.append_assoc]
    rw [hsplit]
    exact List.drop_left' h8
  have hlow : readUInt32LE (A ++ tag) 8 = n := by
    rw [readUInt32LE_drop, hdrop8]
    exact lenLE8_low n hn _
  have hhigh : readUInt32LE (A ++ tag) 12 = 0 := by
    rw [readUInt32LE_drop]
    have h12 : (A ++ tag).drop 12 = ((A ++ tag).drop 8).drop 4 :=
      (List.drop_drop 4 8 _).symm
    rw [h12, hdrop8, ← readUInt32LE_drop]
    exact lenLE8_high n hn _
  have hlen : lengthField (A ++ tag) = (n : Int) := by
    unfold lengthField
    rw [hlow, hhigh]
    simp [jsShl8, toInt32]
  have hg1 : ¬ ((A ++ tag).length < 16) := by omega
  have hg2 : ¬ ((true : Bool) = true ∧ (A ++ tag).take 8 ≠ opdata01Bytes) := by
    rintro ⟨_, hne⟩
    exact hne htake8
  have hg3 : ¬ (hmacF kp.2 ((A ++ tag).take ((A ++ tag).length - 32)) ≠
      (A ++ tag).drop ((A ++ tag).length - 32)) := by
    rw [hmacdata, hmaccheck]
    exact fun hne => hne hhmac
  have hg4 : ¬ (((((A ++ tag)).take ((A ++ tag).length - 32)).drop
      ((if (true : Bool) then 16 else 0) + 16)).length % 16 ≠ 0) := by
    rw [hmacdata]
    simp only [if_true]
    rw [(by rfl : (16 : Nat) + 16 = 32), hctext]
    omega
  simp only [decryptKeyData, if_neg hg1, if_neg hg2, if_neg hg3, if_neg hg4,
    hmacdata, if_true, (by rfl : (16 : Nat) + 16 = 32), hctext, hivext, hlen,
    Int.natAbs_ofNat]
  simp [htake8, hmaccheck, hhmac, hblocks]
  rw [← List.length_append]
  exact hmaccheck.symm

/-- C2 counterexample: the claim quantifies over every plaintext, but the
empty plaintext does not round-trip.  A well-formed envelope for `P = []`
with a full 16-byte block of prepended padding declares length 0, and
`plaintext.slice(-Math.abs(0))` (vault.js:258) is `slice(-0) = slice(0)`,
the whole buffer: opening returns the 16 padding bytes, not `[]`. -/
theorem envelope_roundtrip_empty_cex :
    decryptKeyData cHmac cCipher cKeyPair
        (buildEnvelope cHmac cCipher cKeyPair [] (List.replicate 16 7) cIV) true =
      .ok (List.replicate 16 7) ∧
    (List.replicate 16 7 : Bytes) ≠ ([] : Bytes) :=
  ⟨by decide, by decide⟩

/-- C2 amended: for every nonempty plaintext `P` (of length below 2^32) and
every key pair, building the well-formed §4.2 envelope — any prepended
padding making the plaintext block-aligned, any 16-byte IV, a cipher pair
that inverts on this message, a 32-byte-digest HMAC — and opening it
returns exactly `P`, including when `P.length` is not a multiple of 16.
(For the empty plaintext the code returns the padding instead; see the
counterexample.) -/
theorem envelope_roundtrip_nonempty (hmacF : Bytes → Bytes → Bytes)
    (aesEncF aesDecF : Bytes → Bytes → Bytes → Bytes) (kp : Bytes × Bytes)
    (P pad iv : Bytes)
    (hp : P ≠ [])
    (hn : P.length < 4294967296)
    (halign : (pad.length + P.length) % 16 = 0)
    (hiv : iv.length = 16)
    (henc : (aesEncF kp.1 iv (pad ++ P)).length = (pad ++ P).length)
    (hdec : aesDecF kp.1 iv (aesEncF kp.1 iv (pad ++ P)) = pad ++ P)
    (htag : ∀ k m, (hmacF k m).length = 32) :
    decryptKeyData hmacF aesDecF kp (buildEnvelope hmacF aesEncF kp P pad iv) true =
      .ok P := by
  have hblocks : (aesEncF kp.1 iv (pad ++ P)).length % 16 = 0 := by
    rw [henc, List.length_append]
    omega
  have hopen := open_wellformed hmacF aesDecF kp iv (aesEncF kp.1 iv (pad ++ P))
    (hmacF kp.2 (opdata01Bytes ++ (lenLE8 P.length ++ (iv ++ aesEncF kp.1 iv (pad ++ P)))))
    P.length hn hiv (htag _ _) rfl hblocks
  have hbe : buildEnvelope hmacF aesEncF kp P pad iv =
      (opdata01Bytes ++ (lenLE8 P.length ++ (iv ++ aesEncF kp.1 iv (pad ++ P)))) ++
        hmacF kp.2 (opdata01Bytes ++ (lenLE8 P.length ++ (iv ++ aesEncF kp.1 iv (pad ++ P)))) := rfl
  rw [hbe, hopen, hdec]
  have hslice : sliceLast (pad ++ P) P.length = P := by
    unfold sliceLast
    rw [if_neg (fun h0 => hp (List.length_eq_zero.1 h0))]
    rw [List.length_append]
    have harith : pad.length + P.length - P.length = pad.length := by omega
    rw [harith]
    exact List.drop_left pad P
  rw [hslice]

/-- C2 amended witness: the one-byte plaintext `[1]` with 15 bytes of
padding round-trips through a concrete envelope. -/
theorem envelope_roundtrip_nonempty_witness :
    decryptKeyData cHmac cCipher cKeyPair
        (buildEnvelope cHmac cCipher cKeyPair [1] (List.replicate 15 0) cIV) true =
      .ok [1] :=
  envelope_roundtrip_nonempty cHmac cCipher cCipher cKeyPair [1] (List.replicate 15 0)
    cIV (by decide) (by decide) (by decide) (by decide) (by decide) (by decide)
    (fun _ _ => rfl)
